import Mathlib

/-!
Verification of the face-expression capture/train/predict pipeline (app.py).

The embedding mirrors the source: the global mutable variables (lines 24-31)
become the fields of `AppState`; one iteration of the video-thread loop
(lines 50-89, after a successful `cap.read`) becomes `frameStep`, taking the
detector's result `results.multi_face_landmarks` as a list of faces (the
Python truthiness test on line 59 treats `None` and the empty list alike, so
both are the empty list here); the five request handlers become functions on
`AppState` and on `Store`, the two well-known persisted artifacts
(`facial_expressions.csv` and `modele_decision_tree.h5`).  The numeric
landmark coordinates and the classifier are never computed on, so the
coordinate type `α`, the loaded model (a function from feature lists to
labels) and the sklearn fitting step are parameters.
-/

namespace FaceApp

/-- One mediapipe landmark: the `landmark.x`, `landmark.y`, `landmark.z`
read on line 64. -/
structure Landmark (α : Type) where
  x : α
  y : α
  z : α
deriving DecidableEq

/-- One detected face: `face_landmarks.landmark`, a list of landmarks. -/
abbrev Face (α : Type) := List (Landmark α)

/-- Line 64: `landmarks.extend([landmark.x, landmark.y, landmark.z])`. -/
def landmarkTriple {α : Type} (lm : Landmark α) : List α :=
  [lm.x, lm.y, lm.z]

/-- The inner loop of lines 63-64 over one face's landmarks. -/
def faceLandmarks {α : Type} (f : Face α) : List α :=
  f.flatMap landmarkTriple

/-- Lines 60-64: `landmarks = []`, then for EVERY face in
`results.multi_face_landmarks`, for every landmark of that face, extend
`landmarks` by its three coordinates.  Note the loop runs over all detected
faces, not only the first. -/
def landmarksOf {α : Type} (faces : List (Face α)) : List α :=
  faces.flatMap faceLandmarks

/-- The global mutable state of app.py, lines 24-31.  A dataset row
`[current_class] + landmarks` (line 72) is the pair of its label and its
feature list. -/
structure AppState (α : Type) where
  data : List (String × List α)
  trained_model : Option (List α → String)
  is_predicting : Bool
  is_capturing : Bool
  current_class : String
  num_samples : Int
  samples_captured : Int
  capturing_complete : Bool

/-- The initial values of the globals, lines 24-31. -/
def initState (α : Type) : AppState α :=
  { data := []
    trained_model := none
    is_predicting := false
    is_capturing := false
    current_class := ""
    num_samples := 0
    samples_captured := 0
    capturing_complete := false }

/-- The two persisted artifacts, keyed by fixed names in the source:
`facial_expressions.csv` (its data rows) and `modele_decision_tree.h5`
(the serialized classifier).  `none` means the file does not exist. -/
structure Store (α : Type) where
  csv : Option (List (String × List α))
  model : Option (List α → String)

/-- What one loop iteration contributes to the emitted frame: the capture
progress text of line 74, the prediction text of line 83, and whether the
frame was encoded and yielded (lines 86-89, which run on every iteration). -/
structure FrameOutput where
  captureText : Option String
  predictionText : Option String
  emitted : Bool
deriving DecidableEq

/-- One iteration of the video-thread loop, lines 55-89, after a successful
read: the argument is `results.multi_face_landmarks` (empty = no detection,
matching the falsy test on line 59).  On detection: lines 60-64 build the
landmark vector; line 71 guards the append of line 72 and the increment of
line 73 by `is_capturing and samples_captured < num_samples`; lines 76-77 set
`capturing_complete` once the new count reaches `num_samples`; lines 79-84
attach a prediction when `is_predicting and trained_model`.  Lines 86-89
encode and yield the frame unconditionally. -/
def frameStep {α : Type} (predict : List α → String) (s : AppState α) :
    List (Face α) → AppState α × FrameOutput
  | [] => (s, { captureText := none, predictionText := none, emitted := true })
  | f :: fs =>
    let landmarks := landmarksOf (f :: fs)
    let doCapture := s.is_capturing && decide (s.samples_captured < s.num_samples)
    let s1 : AppState α :=
      if doCapture then
        { s with
            data := s.data ++ [(s.current_class, landmarks)]
            samples_captured := s.samples_captured + 1
            capturing_complete :=
              if s.num_samples ≤ s.samples_captured + 1 then true
              else s.capturing_complete }
      else s
    let captureText : Option String :=
      if doCapture then some s.current_class else none
    let predictionText : Option String :=
      if s1.is_predicting && s1.trained_model.isSome then some (predict landmarks)
      else none
    (s1, { captureText := captureText, predictionText := predictionText, emitted := true })

/-- The loop iterated over a finite list of detection results (one per
frame read). -/
def runFrames {α : Type} (predict : List α → String) (s : AppState α)
    (frames : List (List (Face α))) : AppState α :=
  frames.foldl (fun t f => (frameStep predict t f).1) s

/-- Lines 114-116 of `start_capture`: entering the wait for one class. -/
def captureClassStart {α : Type} (s : AppState α) (name : String) : AppState α :=
  { s with current_class := name, samples_captured := 0, is_capturing := true }

/-- Line 119 of `start_capture`: leaving the wait for one class. -/
def captureClassFinish {α : Type} (s : AppState α) : AppState α :=
  { s with is_capturing := false }

/-- One pass of the loop body of lines 113-119 for one class name: set the
class up, let the video thread process the frames observed while the handler
polls `samples_captured < num_samples` (line 117), then clear the flag.
`frames` are the detection results seen during the wait; the handler's wait
terminates exactly when the count reaches the target, which the theorems
impose as a hypothesis on `frames`. -/
def captureClass {α : Type} (predict : List α → String) (s : AppState α)
    (name : String) (frames : List (List (Face α))) : AppState α :=
  captureClassFinish (runFrames predict (captureClassStart s name) frames)

/-- The JSON reply of a handler: its `message` and `success` fields. -/
structure ApiResult where
  message : String
  success : Bool
deriving DecidableEq

/-- The request body of `start_capture` (lines 109-111): `num_samples`
(a Python int, possibly non-positive) and the ordered `class_names`. -/
structure CaptureRequest where
  num_samples : Int
  class_names : List String

/-- The `start_capture` handler, lines 105-121: store the requested count,
then run the class loop sequentially; `schedule` lists, per class, the
detection results the video thread sees during that class's wait.  No
validation of the request is performed, and the reply is always
`Capture completed.` / success. -/
def start_capture {α : Type} (predict : List α → String) (req : CaptureRequest)
    (schedule : List (List (List (Face α)))) (s : AppState α) :
    AppState α × ApiResult :=
  ((req.class_names.zip schedule).foldl
      (fun t p => captureClass predict t p.1 p.2)
      { s with num_samples := req.num_samples },
   { message := "Capture completed.", success := true })

/-- The unhandled exception `train_model` can raise: with a persisted CSV of
zero data rows, `train_test_split` on line 139 raises a `ValueError`
(an empty split), before any model is fitted or saved. -/
inductive TrainException
  | emptyTrainTestSplit
deriving DecidableEq

/-- The `train_model` handler, lines 123-153.  `fit` stands for the external
sklearn step (lines 139-148: split, `DecisionTreeClassifier().fit`): it is
only reached when the persisted CSV exists and has at least one data row.
Modelled from the spec: the spec's trainer contract (section 4.4) splits rows
80/20 and notes the zero-row degenerate case is not guarded by the source, so
a persisted but row-less CSV makes the split raise instead of replying. -/
def train_model {α : Type} (fit : List (String × List α) → (List α → String))
    (st : Store α) (s : AppState α) :
    Except TrainException (Store α × AppState α × ApiResult) :=
  match st.csv with
  | none => .ok (st, s, { message := "Please capture the data first.", success := false })
  | some rows =>
    match rows with
    | [] => .error .emptyTrainTestSplit
    | _ :: _ =>
      let m := fit rows
      .ok ({ st with model := some m },
           { s with trained_model := some m },
           { message := "Model trained successfully.", success := true })

/-- The `start_prediction` handler, lines 155-164: fail when the persisted
model artifact does not exist; otherwise load it as the active model and
enable prediction. -/
def start_prediction {α : Type} (st : Store α) (s : AppState α) :
    AppState α × ApiResult :=
  match st.model with
  | none => (s, { message := "Train the model please.", success := false })
  | some m =>
    ({ s with trained_model := some m, is_predicting := true },
     { message := "Prediction started.", success := true })

/-- The `stop_prediction` handler, lines 166-170. -/
def stop_prediction {α : Type} (s : AppState α) : AppState α × ApiResult :=
  ({ s with is_predicting := false }, { message := "Prediction stopped.", success := true })

/-- The `download_data` handler, lines 172-179: materialize the in-memory
rows to the persisted CSV artifact (overwriting it) and leave the in-memory
state untouched. -/
def download_data {α : Type} (st : Store α) (s : AppState α) :
    Store α × AppState α :=
  ({ st with csv := some s.data }, s)

/-- The application state a Flask reply leaves behind when the handler
raises: for reading a result uniformly, an `Except` result's state, with a
fallback for the error case. -/
def exceptState {α : Type} (e : Except TrainException (Store α × AppState α × ApiResult))
    (dflt : AppState α) : AppState α :=
  match e with
  | .ok r => r.2.1
  | .error _ => dflt

/-! ## Helper lemmas about the landmark extraction -/

lemma faceLandmarks_length {α : Type} (f : Face α) :
    (faceLandmarks f).length = 3 * f.length := by
  induction f with
  | nil => rfl
  | cons lm rest ih =>
    simp [faceLandmarks, landmarkTriple] at ih ⊢
    omega

lemma landmarksOf_nil {α : Type} : landmarksOf ([] : List (Face α)) = [] := rfl

lemma landmarksOf_cons {α : Type} (f : Face α) (fs : List (Face α)) :
    landmarksOf (f :: fs) = faceLandmarks f ++ landmarksOf fs := by
  simp [landmarksOf]

lemma landmarksOf_length {α : Type} (faces : List (Face α)) :
    (landmarksOf faces).length = 3 * (faces.map List.length).sum := by
  induction faces with
  | nil => rfl
  | cons f fs ih =>
    rw [landmarksOf_cons]
    simp [faceLandmarks_length, ih]
    ring

/-! ## Helper lemmas about one loop iteration and the iterated loop -/

lemma frameStep_fst_nocapture {α : Type} (predict : List α → String)
    (s : AppState α) (faces : List (Face α))
    (h : (s.is_capturing && decide (s.samples_captured < s.num_samples)) = false) :
    (frameStep predict s faces).1 = s := by
  cases faces with
  | nil => rfl
  | cons f fs => simp [frameStep, h]

lemma frameStep_fst_capture {α : Type} (predict : List α → String)
    (s : AppState α) (faces : List (Face α)) (hne : faces ≠ [])
    (h : (s.is_capturing && decide (s.samples_captured < s.num_samples)) = true) :
    (frameStep predict s faces).1 =
      { s with
          data := s.data ++ [(s.current_class, landmarksOf faces)]
          samples_captured := s.samples_captured + 1
          capturing_complete :=
            if s.num_samples ≤ s.samples_captured + 1 then true
            else s.capturing_complete } := by
  cases faces with
  | nil => exact absurd rfl hne
  | cons f fs => simp [frameStep, h]

lemma runFrames_nil {α : Type} (predict : List α → String) (s : AppState α) :
    runFrames predict s [] = s := rfl

lemma runFrames_cons {α : Type} (predict : List α → String) (s : AppState α)
    (f : List (Face α)) (fs : List (List (Face α))) :
    runFrames predict s (f :: fs) = runFrames predict (frameStep predict s f).1 fs := rfl

/-- Once the count has reached the target, further frames change nothing of
the state (line 71's guard is false on every one of them). -/
lemma runFrames_sat {α : Type} (predict : List α → String) :
    ∀ (frames : List (List (Face α))) (s : AppState α),
      s.num_samples ≤ s.samples_captured → runFrames predict s frames = s := by
  intro frames
  induction frames with
  | nil => intro s _; rfl
  | cons f fs ih =>
    intro s h
    have hd : decide (s.samples_captured < s.num_samples) = false :=
      decide_eq_false (not_lt.mpr h)
    rw [runFrames_cons, frameStep_fst_nocapture predict s f (by simp [hd])]
    exact ih s h

/-- While the capture flag is up, a run over detecting frames appends one
row per frame, labelled with the current class, until the count reaches the
target; every other control field of the state is untouched. -/
lemma runFrames_capture {α : Type} (predict : List α → String) :
    ∀ (frames : List (List (Face α))) (s : AppState α),
      s.is_capturing = true → (∀ f ∈ frames, f ≠ []) →
      ∃ rows : List (String × List α),
        (runFrames predict s frames).data = s.data ++ rows ∧
        (∀ r ∈ rows, r.1 = s.current_class) ∧
        rows.length = min frames.length (s.num_samples - s.samples_captured).toNat ∧
        (runFrames predict s frames).samples_captured = s.samples_captured + rows.length ∧
        (runFrames predict s frames).is_capturing = true ∧
        (runFrames predict s frames).num_samples = s.num_samples ∧
        (runFrames predict s frames).current_class = s.current_class ∧
        (runFrames predict s frames).is_predicting = s.is_predicting ∧
        (runFrames predict s frames).trained_model = s.trained_model := by
  intro frames
  induction frames with
  | nil =>
    intro s hcap _
    exact ⟨[], by simp [runFrames_nil], by simp, by simp [runFrames_nil],
      by simp [runFrames_nil], by simpa [runFrames_nil] using hcap,
      by simp [runFrames_nil], by simp [runFrames_nil], by simp [runFrames_nil],
      by simp [runFrames_nil]⟩
  | cons f fs ih =>
    intro s hcap hall
    have hfne : f ≠ [] := hall f (List.mem_cons_self f fs)
    have hall2 : ∀ g ∈ fs, g ≠ [] := fun g hg => hall g (List.mem_cons_of_mem f hg)
    by_cases hlt : s.samples_captured < s.num_samples
    · have hguard : (s.is_capturing && decide (s.samples_captured < s.num_samples)) = true := by
        simp [hcap, hlt]
      rw [runFrames_cons, frameStep_fst_capture predict s f hfne hguard]
      obtain ⟨rows, hdata, hlab, hlen, hcount, hcap2, hnum, hcls, hpredf, hmodel⟩ :=
        ih { s with
              data := s.data ++ [(s.current_class, landmarksOf f)]
              samples_captured := s.samples_captured + 1
              capturing_complete :=
                if s.num_samples ≤ s.samples_captured + 1 then true
                else s.capturing_complete } hcap hall2
      simp only at hdata hlab hlen hcount hcap2 hnum hcls hpredf hmodel
      refine ⟨(s.current_class, landmarksOf f) :: rows, ?_, ?_, ?_, ?_, ?_, ?_, ?_, ?_, ?_⟩
      · rw [hdata]; simp
      · intro r hr
        rcases List.mem_cons.mp hr with h1 | h2
        · rw [h1]
        · exact hlab r h2
      · simp only [List.length_cons, hlen]
        omega
      · rw [hcount]
        simp only [List.length_cons]
        push_cast
        ring
      · exact hcap2
      · rw [hnum]
      · exact hcls
      · exact hpredf
      · exact hmodel
    · have hd : decide (s.samples_captured < s.num_samples) = false := decide_eq_false hlt
      rw [runFrames_cons, frameStep_fst_nocapture predict s f (by simp [hd]),
        runFrames_sat predict fs s (not_lt.mp hlt)]
      refine ⟨[], by simp, by simp, ?_, by simp, hcap, rfl, rfl, rfl, rfl⟩
      simp only [List.length_nil, List.length_cons]
      omega

/-- One class's pass of the `start_capture` loop, under the conditions that
make the handler's wait terminate (every observed frame detects a face and
there are at least `num_samples` of them): exactly `num_samples.toNat` rows
are appended, all labelled with the class, and the flag comes back down. -/
lemma captureClass_run {α : Type} (predict : List α → String) (s : AppState α)
    (name : String) (frames : List (List (Face α)))
    (hd : ∀ f ∈ frames, f ≠ []) (hlen : s.num_samples.toNat ≤ frames.length) :
    ∃ rows : List (String × List α),
      (captureClass predict s name frames).data = s.data ++ rows ∧
      (∀ r ∈ rows, r.1 = name) ∧
      rows.length = s.num_samples.toNat ∧
      (captureClass predict s name frames).samples_captured = (s.num_samples.toNat : Int) ∧
      (captureClass predict s name frames).is_capturing = false ∧
      (captureClass predict s name frames).num_samples = s.num_samples ∧
      (captureClass predict s name frames).current_class = name ∧
      (captureClass predict s name frames).is_predicting = s.is_predicting ∧
      (captureClass predict s name frames).trained_model = s.trained_model := by
  obtain ⟨rows, hdata, hlab, hlen2, hcount, hcap, hnum, hcls, hpredf, hmodel⟩ :=
    runFrames_capture predict frames (captureClassStart s name) rfl hd
  simp only [captureClassStart] at hdata hlab hlen2 hcount hcap hnum hcls hpredf hmodel
  have hrl : rows.length = s.num_samples.toNat := by
    rw [hlen2]; omega
  simp only [captureClass, captureClassFinish, captureClassStart]
  refine ⟨rows, hdata, hlab, hrl, ?_, by trivial, hnum, hcls, hpredf, hmodel⟩
  rw [hcount, hrl]
  simp

/-- With a non-positive target, the wait of lines 117-118 exits at once and
no frame ever passes line 71's guard: one class's pass only renames the
class, zeroes the count and toggles the flag. -/
lemma captureClass_sat {α : Type} (predict : List α → String) (t : AppState α)
    (name : String) (frames : List (List (Face α))) (h : t.num_samples ≤ 0) :
    captureClass predict t name frames =
      { t with current_class := name, samples_captured := 0, is_capturing := false } := by
  unfold captureClass
  rw [runFrames_sat predict frames (captureClassStart t name) h]
  rfl

/-- The whole class loop with a non-positive target changes none of the
dataset, the stored count, the model or the prediction flag. -/
lemma foldl_captureClass_sat {α : Type} (predict : List α → String) :
    ∀ (l : List (String × List (List (Face α)))) (t : AppState α),
      t.num_samples ≤ 0 →
      (l.foldl (fun u p => captureClass predict u p.1 p.2) t).data = t.data ∧
      (l.foldl (fun u p => captureClass predict u p.1 p.2) t).num_samples = t.num_samples ∧
      (l.foldl (fun u p => captureClass predict u p.1 p.2) t).trained_model = t.trained_model ∧
      (l.foldl (fun u p => captureClass predict u p.1 p.2) t).is_predicting = t.is_predicting := by
  intro l
  induction l with
  | nil => intro t _; exact ⟨rfl, rfl, rfl, rfl⟩
  | cons p ps ih =>
    intro t ht
    rw [List.foldl_cons, captureClass_sat predict t p.1 p.2 ht]
    exact ih _ ht

/-- One loop iteration only ever appends to the dataset. -/
lemma frameStep_data_extend {α : Type} (predict : List α → String) (s : AppState α)
    (faces : List (Face α)) :
    ∃ t, (frameStep predict s faces).1.data = s.data ++ t := by
  cases faces with
  | nil => exact ⟨[], by simp [frameStep]⟩
  | cons f fs =>
    cases hb : (s.is_capturing && decide (s.samples_captured < s.num_samples)) with
    | false => exact ⟨[], by rw [frameStep_fst_nocapture predict s (f :: fs) hb]; simp⟩
    | true =>
      exact ⟨[(s.current_class, landmarksOf (f :: fs))],
        by rw [frameStep_fst_capture predict s (f :: fs) (by simp) hb]⟩

/-- The iterated loop only ever appends to the dataset. -/
lemma runFrames_data_extend {α : Type} (predict : List α → String) :
    ∀ (frames : List (List (Face α))) (s : AppState α),
      ∃ t, (runFrames predict s frames).data = s.data ++ t := by
  intro frames
  induction frames with
  | nil => intro s; exact ⟨[], by simp [runFrames_nil]⟩
  | cons f fs ih =>
    intro s
    obtain ⟨t1, h1⟩ := frameStep_data_extend predict s f
    obtain ⟨t2, h2⟩ := ih (frameStep predict s f).1
    exact ⟨t1 ++ t2, by rw [runFrames_cons, h2, h1, List.append_assoc]⟩

/-- One class's pass of the `start_capture` loop only ever appends. -/
lemma captureClass_data_extend {α : Type} (predict : List α → String) (s : AppState α)
    (name : String) (frames : List (List (Face α))) :
    ∃ t, (captureClass predict s name frames).data = s.data ++ t := by
  obtain ⟨t, h⟩ := runFrames_data_extend predict frames (captureClassStart s name)
  exact ⟨t, h⟩

/-- The whole class loop only ever appends. -/
lemma foldl_captureClass_data_extend {α : Type} (predict : List α → String) :
    ∀ (l : List (String × List (List (Face α)))) (t : AppState α),
      ∃ u, (l.foldl (fun v p => captureClass predict v p.1 p.2) t).data = t.data ++ u := by
  intro l
  induction l with
  | nil => intro t; exact ⟨[], by simp⟩
  | cons p ps ih =>
    intro t
    obtain ⟨u1, h1⟩ := captureClass_data_extend predict t p.1 p.2
    obtain ⟨u2, h2⟩ := ih (captureClass predict t p.1 p.2)
    exact ⟨u1 ++ u2, by rw [List.foldl_cons, h2, h1, List.append_assoc]⟩

/-! ## The claims -/

/-- C1, the claim as stated is false on the code: lines 62-64 extend one
shared `landmarks` list across EVERY face of `results.multi_face_landmarks`,
so a detection result holding two 468-point faces yields a single vector of
length 2808, not the claimed constant 1404 taken from the first face only. -/
theorem landmarksOf_two_faces_not_first_only :
    (landmarksOf (List.replicate 2 (List.replicate 468 (⟨0, 0, 0⟩ : Landmark ℕ)))).length
      = 2808 ∧
    ¬ (landmarksOf (List.replicate 2 (List.replicate 468 (⟨0, 0, 0⟩ : Landmark ℕ)))).length
      = 1404 := by
  have h : (landmarksOf (List.replicate 2 (List.replicate 468 (⟨0, 0, 0⟩ : Landmark ℕ)))).length
      = 2808 := by
    rw [landmarksOf_length]
    simp only [List.map_replicate, List.length_replicate, List.sum_replicate, smul_eq_mul]
  exact ⟨h, by rw [h]; decide⟩

/-- C1 (amended): the extractor builds exactly one vector per detecting
frame by concatenating the landmark triples of ALL detected faces, so its
length is 1404 times the number of detected faces; with the detector
reporting a single 468-point face (the configuration the source relies on)
the length is the constant 1404 = 468 x 3. -/
theorem landmarksOf_concatenates_all_faces {α : Type} (faces : List (Face α))
    (h : ∀ f ∈ faces, f.length = 468) :
    (landmarksOf faces).length = 1404 * faces.length := by
  rw [landmarksOf_length]
  have hsum : ∀ (l : List (Face α)), (∀ f ∈ l, f.length = 468) →
      (l.map List.length).sum = 468 * l.length := by
    intro l
    induction l with
    | nil => intro _; simp
    | cons f fs ih =>
      intro hl
      have hf : f.length = 468 := hl f (List.mem_cons_self f fs)
      have hfs := ih (fun g hg => hl g (List.mem_cons_of_mem f hg))
      simp [hf, hfs]
      ring
  rw [hsum faces h]
  ring

/-- C1 witness: a single 468-point face yields the constant length 1404. -/
theorem landmarksOf_concatenates_all_faces_witness :
    (landmarksOf [List.replicate 468 (⟨0, 0, 0⟩ : Landmark ℕ)]).length = 1404 * 1 :=
  landmarksOf_concatenates_all_faces [List.replicate 468 (⟨0, 0, 0⟩ : Landmark ℕ)]
    (by
      intro f hf
      rw [List.mem_singleton.mp hf, List.length_replicate])

/-- C2, the claim as stated is false on the code: `start_capture` validates
nothing.  A request with sample count 0 and an empty class list is answered
with success (`Capture completed.`) and still mutates shared state: the
stored `num_samples` drops from its previous value 5 to 0. -/
theorem start_capture_invalid_request_accepted :
    (start_capture (fun _ : List ℕ => "") ⟨0, []⟩ []
        { initState ℕ with num_samples := 5 }).2.success = true ∧
    (start_capture (fun _ : List ℕ => "") ⟨0, []⟩ []
        { initState ℕ with num_samples := 5 }).1.num_samples = 0 ∧
    ({ initState ℕ with num_samples := 5 } : AppState ℕ).num_samples = 5 :=
  ⟨rfl, rfl, rfl⟩

/-- C2 (amended): for a degenerate capture request (non-positive sample
count, or an empty class list), `start_capture` reports success
(`Capture completed.`), appends no sample, leaves the model and the
prediction flag alone, but DOES overwrite the stored `num_samples` with the
requested count; no failure is ever reported. -/
theorem start_capture_accepts_degenerate_requests {α : Type}
    (predict : List α → String) (req : CaptureRequest)
    (schedule : List (List (List (Face α)))) (s : AppState α)
    (h : req.num_samples ≤ 0 ∨ req.class_names = []) :
    (start_capture predict req schedule s).2 = ⟨"Capture completed.", true⟩ ∧
    (start_capture predict req schedule s).1.data = s.data ∧
    (start_capture predict req schedule s).1.num_samples = req.num_samples ∧
    (start_capture predict req schedule s).1.trained_model = s.trained_model ∧
    (start_capture predict req schedule s).1.is_predicting = s.is_predicting := by
  rcases h with h | h
  · obtain ⟨h1, h2, h3, h4⟩ := foldl_captureClass_sat predict
      (req.class_names.zip schedule) { s with num_samples := req.num_samples } h
    exact ⟨rfl, h1, h2, h3, h4⟩
  · refine ⟨rfl, ?_, ?_, ?_, ?_⟩ <;>
      simp [start_capture, h]

/-- C2 witness: the degenerate request (count 0, one class) at the initial
state. -/
theorem start_capture_accepts_degenerate_requests_witness :
    (start_capture (fun _ : List ℕ => "") ⟨0, ["x"]⟩ [] (initState ℕ)).2
      = ⟨"Capture completed.", true⟩ ∧
    (start_capture (fun _ : List ℕ => "") ⟨0, ["x"]⟩ [] (initState ℕ)).1.data
      = (initState ℕ).data ∧
    (start_capture (fun _ : List ℕ => "") ⟨0, ["x"]⟩ [] (initState ℕ)).1.num_samples
      = (0 : Int) ∧
    (start_capture (fun _ : List ℕ => "") ⟨0, ["x"]⟩ [] (initState ℕ)).1.trained_model
      = (initState ℕ).trained_model ∧
    (start_capture (fun _ : List ℕ => "") ⟨0, ["x"]⟩ [] (initState ℕ)).1.is_predicting
      = (initState ℕ).is_predicting :=
  start_capture_accepts_degenerate_requests (fun _ : List ℕ => "") ⟨0, ["x"]⟩ []
    (initState ℕ) (Or.inl (by decide))

/-- C3: a capture request for one class with target n > 0, during which
every observed frame detects a face (and the wait can terminate: at least n
such frames arrive), appends exactly n rows, all labelled with that class;
the count stops exactly at n, the capture flag is back down, and the
handler replies with success. -/
theorem start_capture_single_class_exact_count {α : Type}
    (predict : List α → String) (c : String) (n : Int)
    (frames : List (List (Face α))) (s : AppState α)
    (hn : 0 < n) (hd : ∀ f ∈ frames, f ≠ []) (hlen : n.toNat ≤ frames.length) :
    ∃ rows : List (String × List α),
      (start_capture predict ⟨n, [c]⟩ [frames] s).1.data = s.data ++ rows ∧
      rows.length = n.toNat ∧
      (∀ r ∈ rows, r.1 = c) ∧
      (start_capture predict ⟨n, [c]⟩ [frames] s).1.samples_captured = n ∧
      (start_capture predict ⟨n, [c]⟩ [frames] s).1.is_capturing = false ∧
      (start_capture predict ⟨n, [c]⟩ [frames] s).2.success = true := by
  have hfold : (start_capture predict ⟨n, [c]⟩ [frames] s).1
      = captureClass predict { s with num_samples := n } c frames := rfl
  obtain ⟨rows, hdata, hlab, hlen2, hcount, hcap, hnum, hcls, hpredf, hmodel⟩ :=
    captureClass_run predict { s with num_samples := n } c frames hd hlen
  refine ⟨rows, ?_, hlen2, hlab, ?_, ?_, rfl⟩
  · rw [hfold]; exact hdata
  · rw [hfold, hcount]
    simp only
    omega
  · rw [hfold]; exact hcap

/-- C3 witness: one class, target 1, one detecting frame. -/
theorem start_capture_single_class_exact_count_witness :
    ∃ rows : List (String × List ℕ),
      (start_capture (fun _ : List ℕ => "") ⟨1, ["happy"]⟩ [[[[⟨0, 0, 0⟩]]]]
          (initState ℕ)).1.data = (initState ℕ).data ++ rows ∧
      rows.length = (1 : Int).toNat ∧
      (∀ r ∈ rows, r.1 = "happy") ∧
      (start_capture (fun _ : List ℕ => "") ⟨1, ["happy"]⟩ [[[[⟨0, 0, 0⟩]]]]
          (initState ℕ)).1.samples_captured = 1 ∧
      (start_capture (fun _ : List ℕ => "") ⟨1, ["happy"]⟩ [[[[⟨0, 0, 0⟩]]]]
          (initState ℕ)).1.is_capturing = false ∧
      (start_capture (fun _ : List ℕ => "") ⟨1, ["happy"]⟩ [[[[⟨0, 0, 0⟩]]]]
          (initState ℕ)).2.success = true :=
  start_capture_single_class_exact_count (fun _ : List ℕ => "") "happy" 1
    [[[⟨0, 0, 0⟩]]] (initState ℕ) (by decide) (by decide) (by decide)

/-- C4, the claim as stated is false on the code: the only guard in
`train_model` (line 130) is the EXISTENCE of the persisted CSV file.  With a
persisted dataset of zero data rows (exactly what `download_data` writes
when nothing was captured), the handler reaches `train_test_split` on zero
rows and raises instead of returning the claimed structured failure. -/
theorem train_model_empty_rows_raises :
    train_model (fun _ : List (String × List ℕ) => fun _ : List ℕ => "")
      ⟨some [], none⟩ (initState ℕ) = .error .emptyTrainTestSplit :=
  rfl

/-- C4 (amended): when no persisted dataset file exists, `train_model`
returns the failure reply `Please capture the data first.`, attempts no
training and leaves the persisted artifacts and the in-memory state exactly
as they were; when the file exists but holds zero data rows, it instead
raises from the train/test split (still never writing the model
artifact). -/
theorem train_model_without_csv_fails_cleanly {α : Type}
    (fit : List (String × List α) → (List α → String))
    (st : Store α) (s : AppState α) (h : st.csv = none) :
    train_model fit st s
      = .ok (st, s, { message := "Please capture the data first.", success := false }) := by
  simp [train_model, h]

/-- C4 witness: no persisted dataset at the initial state. -/
theorem train_model_without_csv_fails_cleanly_witness :
    train_model (fun _ : List (String × List ℕ) => fun _ : List ℕ => "")
        ⟨none, none⟩ (initState ℕ)
      = .ok (⟨none, none⟩, initState ℕ,
          { message := "Please capture the data first.", success := false }) :=
  train_model_without_csv_fails_cleanly
    (fun _ : List (String × List ℕ) => fun _ : List ℕ => "") ⟨none, none⟩
    (initState ℕ) rfl

/-- C5: `start_prediction` fails (with `Train the model please.`) exactly
when no persisted model artifact exists, and then changes nothing — in
particular the prediction flag keeps its previous (disabled) value; when
the artifact exists it is loaded as the active model, the prediction flag
goes up, and the reply is success. -/
theorem start_prediction_gates_on_model_artifact {α : Type}
    (st : Store α) (s : AppState α) :
    ((start_prediction st s).2.success = false ↔ st.model = none) ∧
    (start_prediction st s).2.success = st.model.isSome ∧
    (start_prediction st s).1.is_predicting = (s.is_predicting || st.model.isSome) ∧
    (start_prediction st s).1.trained_model
      = (if st.model.isSome then st.model else s.trained_model) ∧
    (start_prediction st s).1.data = s.data ∧
    (start_prediction st s).1.is_capturing = s.is_capturing ∧
    (start_prediction st s).1.samples_captured = s.samples_captured ∧
    (start_prediction st s).2.message
      = (if st.model.isSome then "Prediction started." else "Train the model please.") := by
  cases hm : st.model with
  | none => simp [start_prediction, hm]
  | some m => simp [start_prediction, hm]

/-- C6: one `start_capture` request for the ordered classes [a, b] with
target n > 0 appends the n rows labelled a strictly before every row
labelled b: the dataset grows by a block of n a-rows followed by a block of
n b-rows, with no interleaving. -/
theorem start_capture_two_classes_in_order {α : Type}
    (predict : List α → String) (a b : String) (n : Int)
    (fa fb : List (List (Face α))) (s : AppState α)
    (hda : ∀ f ∈ fa, f ≠ []) (hdb : ∀ f ∈ fb, f ≠ [])
    (hla : n.toNat ≤ fa.length) (hlb : n.toNat ≤ fb.length) :
    ∃ ra rb : List (String × List α),
      (start_capture predict ⟨n, [a, b]⟩ [fa, fb] s).1.data = s.data ++ ra ++ rb ∧
      ra.length = n.toNat ∧ (∀ r ∈ ra, r.1 = a) ∧
      rb.length = n.toNat ∧ (∀ r ∈ rb, r.1 = b) ∧
      (start_capture predict ⟨n, [a, b]⟩ [fa, fb] s).2.success = true := by
  have hfold : (start_capture predict ⟨n, [a, b]⟩ [fa, fb] s).1
      = captureClass predict
          (captureClass predict { s with num_samples := n } a fa) b fb := rfl
  obtain ⟨ra, hdataa, hlaba, hlena, hcounta, hcapa, hnuma, hclsa, hpa, hma⟩ :=
    captureClass_run predict { s with num_samples := n } a fa hda hla
  obtain ⟨rb, hdatab, hlabb, hlenb, hcountb, hcapb, hnumb, hclsb, hpb, hmb⟩ :=
    captureClass_run predict (captureClass predict { s with num_samples := n } a fa)
      b fb hdb (by rw [hnuma]; exact hlb)
  refine ⟨ra, rb, ?_, hlena, hlaba, ?_, hlabb, rfl⟩
  · rw [hfold, hdatab, hdataa, List.append_assoc]
  · rw [hlenb, hnuma]

/-- C6 witness: classes a then b, target 1, one detecting frame each. -/
theorem start_capture_two_classes_in_order_witness :
    ∃ ra rb : List (String × List ℕ),
      (start_capture (fun _ : List ℕ => "") ⟨1, ["a", "b"]⟩
          [[[[⟨0, 0, 0⟩]]], [[[⟨0, 0, 0⟩]]]] (initState ℕ)).1.data
        = (initState ℕ).data ++ ra ++ rb ∧
      ra.length = (1 : Int).toNat ∧ (∀ r ∈ ra, r.1 = "a") ∧
      rb.length = (1 : Int).toNat ∧ (∀ r ∈ rb, r.1 = "b") ∧
      (start_capture (fun _ : List ℕ => "") ⟨1, ["a", "b"]⟩
          [[[[⟨0, 0, 0⟩]]], [[[⟨0, 0, 0⟩]]]] (initState ℕ)).2.success = true :=
  start_capture_two_classes_in_order (fun _ : List ℕ => "") "a" "b" 1
    [[[⟨0, 0, 0⟩]]] [[[⟨0, 0, 0⟩]]] (initState ℕ)
    (by decide) (by decide) (by decide) (by decide)

/-- C8: `stop_prediction` always succeeds (`Prediction stopped.`), lowers
the prediction flag, keeps the loaded model and every other piece of state,
and is idempotent: a second call returns the very same state and reply. -/
theorem stop_prediction_idempotent_always_succeeds {α : Type} (s : AppState α) :
    (stop_prediction s).2 = ⟨"Prediction stopped.", true⟩ ∧
    (stop_prediction s).1.is_predicting = false ∧
    (stop_prediction s).1.trained_model = s.trained_model ∧
    (stop_prediction s).1.data = s.data ∧
    (stop_prediction s).1.is_capturing = s.is_capturing ∧
    (stop_prediction s).1.current_class = s.current_class ∧
    (stop_prediction s).1.num_samples = s.num_samples ∧
    (stop_prediction s).1.samples_captured = s.samples_captured ∧
    (stop_prediction s).1.capturing_complete = s.capturing_complete ∧
    stop_prediction (stop_prediction s).1 = stop_prediction s :=
  ⟨rfl, rfl, rfl, rfl, rfl, rfl, rfl, rfl, rfl, rfl⟩

/-- C9: a frame with no detected face leaves the state exactly as it was
(no row appended, no count moved), draws no capture text and no prediction
text, and the frame is still encoded and emitted; no error path exists. -/
theorem frameStep_no_face_is_harmless {α : Type} (predict : List α → String)
    (s : AppState α) :
    (frameStep predict s []).1 = s ∧
    (frameStep predict s []).1.data = s.data ∧
    (frameStep predict s []).1.samples_captured = s.samples_captured ∧
    (frameStep predict s []).2.captureText = none ∧
    (frameStep predict s []).2.predictionText = none ∧
    (frameStep predict s []).2.emitted = true :=
  ⟨rfl, rfl, rfl, rfl, rfl, rfl⟩

/-- C10: the in-memory dataset is append-only under every operation of the
program: a frame iteration and a whole `start_capture` request only append
to it, and `train_model` (in every branch, including the raising one),
`start_prediction`, `stop_prediction` and `download_data` leave it exactly
as it is — in particular export does not clear it. -/
theorem dataset_append_only :
    (∀ (α : Type) (predict : List α → String) (s : AppState α)
        (faces : List (Face α)),
      ∃ t, (frameStep predict s faces).1.data = s.data ++ t) ∧
    (∀ (α : Type) (predict : List α → String) (req : CaptureRequest)
        (schedule : List (List (List (Face α)))) (s : AppState α),
      ∃ t, (start_capture predict req schedule s).1.data = s.data ++ t) ∧
    (∀ (α : Type) (fit : List (String × List α) → (List α → String))
        (st : Store α) (s : AppState α),
      (exceptState (train_model fit st s) s).data = s.data) ∧
    (∀ (α : Type) (st : Store α) (s : AppState α),
      (start_prediction st s).1.data = s.data) ∧
    (∀ (α : Type) (s : AppState α), (stop_prediction s).1.data = s.data) ∧
    (∀ (α : Type) (st : Store α) (s : AppState α),
      (download_data st s).2.data = s.data) := by
  refine ⟨?_, ?_, ?_, ?_, ?_, ?_⟩
  · intro α predict s faces
    exact frameStep_data_extend predict s faces
  · intro α predict req schedule s
    obtain ⟨u, hu⟩ := foldl_captureClass_data_extend predict
      (req.class_names.zip schedule) { s with num_samples := req.num_samples }
    exact ⟨u, hu⟩
  · intro α fit st s
    cases hc : st.csv with
    | none => simp [train_model, exceptState, hc]
    | some rows =>
      cases rows with
      | nil => simp [train_model, exceptState, hc]
      | cons r rest => simp [train_model, exceptState, hc]
  · intro α st s
    cases hm : st.model with
    | none => simp [start_prediction, hm]
    | some m => simp [start_prediction, hm]
  · intro α s
    rfl
  · intro α st s
    rfl

end FaceApp
